import Mathlib

/-!
Shallow embedding of the KV-cache subsystem of a text-generation inference
runtime (kv_cache.cpp and dml_readback_heap.cpp), together with proofs of the
behavioural properties stated in the accompanying specification.

Tensors are modelled as total functions from a flat element index to an
element value; `std::copy` / `memcpy` style bulk copies become the pointwise
`copyRange` operation; per-layer loops become folds over index lists.
Machine integers are modelled as `Nat` with explicit `% 2 ^ w` reductions at
the points where the source performs unsigned wrap-around arithmetic.
Fallible construction paths (snprintf failure, unsupported element type,
allocation-size overflow) are modelled with `Except` / `Option`.
-/

/-- A bulk element copy, as performed by `std::copy` / `memcpy` /
`cudaMemcpyAsync` in the source: writes `len` elements of `src`, starting at
source offset `srcOff`, into `dst` starting at destination offset `dstOff`,
leaving all other positions of `dst` unchanged. -/
def copyRange {α : Type} (src : Nat → α) (srcOff : Nat) (dst : Nat → α)
    (dstOff len : Nat) : Nat → α :=
  fun a => if dstOff ≤ a ∧ a < dstOff + len then src (srcOff + (a - dstOff)) else dst a

/-- The loop body sequence of `KV_Cache::PickPastState` (split cache): for the
j-th entry `(j, beamIndex)` of the enumerated beam-index list, copy the
`blockSizePerBeam`-element beam row `beamIndex` of the present tensor onto
beam row `j` of the past tensor. -/
def pickPastFold {α : Type} (present : Nat → α) (block : Nat)
    (l : List (Nat × Nat)) (past : Nat → α) : Nat → α :=
  l.foldl (fun p jb => copyRange present (jb.2 * block) p (jb.1 * block) block) past

/-- `KV_Cache::PickPastState`: builds the freshly allocated past tensor
(initial, uninitialized content `past0`) by gathering beam rows of `present`
in the order given by `beamIndices`.  `block` is
`shape_[1] * shape_[2] * shape_[3]` (one beam row). -/
def KV_Cache_PickPastState {α : Type} (present : Nat → α) (block : Nat)
    (beamIndices : List Nat) (past0 : Nat → α) : Nat → α :=
  pickPastFold present block beamIndices.enum past0

/-- The loop body sequence of `KV_Cache_Combined::PickPastState`: for each
enumerated beam index, first the key half (offset `jb * block` within the
first `pastKeySize` elements), then the value half (same offsets shifted by
`pastKeySize`) is copied. -/
def pickPastFoldC {α : Type} (present : Nat → α) (block pastKeySize : Nat)
    (l : List (Nat × Nat)) (past : Nat → α) : Nat → α :=
  l.foldl
    (fun p jb =>
      copyRange present (pastKeySize + jb.2 * block)
        (copyRange present (jb.2 * block) p (jb.1 * block) block)
        (pastKeySize + jb.1 * block) block)
    past

/-- `KV_Cache_Combined::PickPastState`: gathers the key half and the value
half of each beam row of the interleaved present tensor into a freshly
allocated past tensor.  `block` is `shape_[2] * shape_[3] * shape_[4]` and
`pastKeySize` is `shape_[1] * block`. -/
def KV_Cache_Combined_PickPastState {α : Type} (present : Nat → α)
    (block pastKeySize : Nat) (beamIndices : List Nat) (past0 : Nat → α) : Nat → α :=
  pickPastFoldC present block pastKeySize beamIndices.enum past0

/-- Content of `pasts_[i]` after `KV_Cache::Update` (non-shared mode): with an
empty beam-index list the present tensor is moved into the past slot, with a
non-empty list a fresh tensor (uninitialized content `past0`) is filled by
`KV_Cache::PickPastState`. -/
def KV_Cache_UpdatePastContent {α : Type} (beamIndices : List Nat)
    (present past0 : Nat → α) (block : Nat) : Nat → α :=
  if beamIndices.isEmpty then present
  else KV_Cache_PickPastState present block beamIndices past0

/-- Content of `pasts_[i]` after `KV_Cache_Combined::Update`: move of the
present tensor for an empty beam-index list, beam-reordered gather otherwise. -/
def KV_Cache_Combined_UpdatePastContent {α : Type} (beamIndices : List Nat)
    (present past0 : Nat → α) (block pastKeySize : Nat) : Nat → α :=
  if beamIndices.isEmpty then present
  else KV_Cache_Combined_PickPastState present block pastKeySize beamIndices past0

/-- Static model configuration consumed by `SlidingWindowKeyValueCache`
(`model_.config_->model.decoder` and `model_.config_->model.context_length`),
plus `uninit`, the arbitrary content of a freshly allocated (uninitialized)
device tensor returned by `OrtValue::CreateTensor`. -/
structure SWConfig where
  numKVHeads : Nat
  headSize : Nat
  contextLength : Nat
  layerCount : Nat
  uninit : Nat → Nat

/-- Mutable state of a `SlidingWindowKeyValueCache`: the current window size,
the four per-layer shape records, and the per-layer byte buffers (a buffer is
a function from flat byte index to byte value, a layer index selects one
buffer). -/
structure SWCacheState where
  windowSize : Nat
  keyShapeIn : List Nat
  keyShapeOut : List Nat
  valueShapeIn : List Nat
  valueShapeOut : List Nat
  keyIn : Nat → Nat → Nat
  valueIn : Nat → Nat → Nat
  keyOut : Nat → Nat → Nat
  valueOut : Nat → Nat → Nat

/-- Dimension accessor `shape[i]` on a shape record. -/
def shapeDim (shape : List Nat) (i : Nat) : Nat :=
  shape.getD i 0

/-- One chunk iteration of the key-cache concatenation in
`SlidingWindowKeyValueCache::Update` (the `window_size_ > 1` collapse path,
`updated_window_size = 1`): shift the old key-in row left by one element into
the new row, then append the `W` key-out elements of that chunk at offset
`key_cache_shape_in_[3] - 1` of the new row. -/
def collapseKeyStep (C kIn3 kOut3 W : Nat) (oldIn oldOut : Nat → Nat)
    (dst : Nat → Nat) (j : Nat) : Nat → Nat :=
  copyRange oldOut (j * kOut3)
    (copyRange oldIn (j * kIn3 + 1) dst (j * (C - 1)) (kIn3 - 1))
    (j * (C - 1) + (kIn3 - 1)) W

/-- The freshly allocated key-in tensor built by the collapse path of
`SlidingWindowKeyValueCache::Update`: the chunk loop runs over
`updated_key_cache_shape_in[0] * updated_key_cache_shape_in[2]` chunks of the
new `[num_kv_heads, 1, head_size, context_length - 1]` tensor. -/
def slidingCollapseKeyIn (cfg : SWConfig) (kIn3 kOut3 W : Nat)
    (oldIn oldOut : Nat → Nat) : Nat → Nat :=
  (List.range (cfg.numKVHeads * cfg.headSize)).foldl
    (collapseKeyStep cfg.contextLength kIn3 kOut3 W oldIn oldOut) cfg.uninit

/-- The freshly allocated value-in tensor built by the collapse path of
`SlidingWindowKeyValueCache::Update` (note: the source offsets of the first
copy use the value-out shape strides, exactly as the source code does). -/
def slidingCollapseValueIn (cfg : SWConfig) (vIn2 vIn3 vOut2 vOut3 W : Nat)
    (oldIn oldOut : Nat → Nat) : Nat → Nat :=
  let C := cfg.contextLength
  let H := cfg.headSize
  (List.range cfg.numKVHeads).foldl
    (fun dst j =>
      copyRange oldOut (j * vOut2 * vOut3)
        (copyRange oldIn (j * vOut2 * vOut3 + vOut3) dst (j * ((C - 1) * H))
          ((vIn2 - 1) * vIn3))
        (j * ((C - 1) * H) + (vIn2 - 1) * H) (W * vOut3))
    cfg.uninit

/-- In-place key slide of `SlidingWindowKeyValueCache::Slide`: per chunk,
shift the key-in row left by `W` positions and append the chunk's `W` key-out
elements at the freed tail.  The overlapping in-place `std::copy` moves
forward with destination strictly below source, so it reads only original
key-in content. -/
def slidingSlideKeyIn (kIn0 kIn2 kIn3 kOut3 W : Nat)
    (keyIn keyOut : Nat → Nat) : Nat → Nat :=
  (List.range (kIn0 * kIn2)).foldl
    (fun dst j =>
      copyRange keyOut (j * kOut3)
        (copyRange keyIn (j * kIn3 + W) dst (j * kIn3) (kIn3 - W))
        (j * kIn3 + (kIn3 - W)) W)
    keyIn

/-- In-place value slide of `SlidingWindowKeyValueCache::Slide`: per head,
shift the value-in slab left by `W * vIn3` bytes and append the value-out
slab of that head at the freed tail. -/
def slidingSlideValueIn (vIn0 vIn2 vIn3 vOut2 vOut3 W : Nat)
    (valueIn valueOut : Nat → Nat) : Nat → Nat :=
  (List.range vIn0).foldl
    (fun dst j =>
      copyRange valueOut (j * vOut2 * vOut3)
        (copyRange valueIn (j * vIn2 * vIn3 + W * vIn3) dst (j * vIn2 * vIn3)
          ((vIn2 - W) * vIn3))
        (j * vIn2 * vIn3 + (vIn2 - W) * vIn3) (W * vOut3))
    valueIn

/-- `SlidingWindowKeyValueCache::Slide`: every layer's key-in and value-in
buffer is compacted in place; shapes, window size and the out tensors are
untouched. -/
def SlidingWindowKeyValueCache_Slide (cfg : SWConfig) (s : SWCacheState) : SWCacheState :=
  { s with
    keyIn := fun layer =>
      if layer < cfg.layerCount then
        slidingSlideKeyIn (shapeDim s.keyShapeIn 0) (shapeDim s.keyShapeIn 2)
          (shapeDim s.keyShapeIn 3) (shapeDim s.keyShapeOut 3) s.windowSize
          (s.keyIn layer) (s.keyOut layer)
      else s.keyIn layer
    valueIn := fun layer =>
      if layer < cfg.layerCount then
        slidingSlideValueIn (shapeDim s.valueShapeIn 0) (shapeDim s.valueShapeIn 2)
          (shapeDim s.valueShapeIn 3) (shapeDim s.valueShapeOut 2)
          (shapeDim s.valueShapeOut 3) s.windowSize
          (s.valueIn layer) (s.valueOut layer)
      else s.valueIn layer }

/-- The collapse path of `SlidingWindowKeyValueCache::Update`
(`window_size_ != 1`): every layer's in tensors are rebuilt at the
window-size-1 geometry, the out tensors are reallocated (uninitialized), and
`window_size_` and all four shape records transition to the collapsed
geometry. -/
def SlidingWindowKeyValueCache_Collapse (cfg : SWConfig) (s : SWCacheState) : SWCacheState :=
  { windowSize := 1
    keyShapeIn := [cfg.numKVHeads, 1, cfg.headSize, cfg.contextLength - 1]
    keyShapeOut := [cfg.numKVHeads, 1, cfg.headSize, 1]
    valueShapeIn := [cfg.numKVHeads, 1, cfg.contextLength - 1, cfg.headSize]
    valueShapeOut := [cfg.numKVHeads, 1, 1, cfg.headSize]
    keyIn := fun layer =>
      if layer < cfg.layerCount then
        slidingCollapseKeyIn cfg (shapeDim s.keyShapeIn 3) (shapeDim s.keyShapeOut 3)
          s.windowSize (s.keyIn layer) (s.keyOut layer)
      else s.keyIn layer
    valueIn := fun layer =>
      if layer < cfg.layerCount then
        slidingCollapseValueIn cfg (shapeDim s.valueShapeIn 2) (shapeDim s.valueShapeIn 3)
          (shapeDim s.valueShapeOut 2) (shapeDim s.valueShapeOut 3)
          s.windowSize (s.valueIn layer) (s.valueOut layer)
      else s.valueIn layer
    keyOut := fun layer => if layer < cfg.layerCount then cfg.uninit else s.keyOut layer
    valueOut := fun layer => if layer < cfg.layerCount then cfg.uninit else s.valueOut layer }

/-- `SlidingWindowKeyValueCache::Update`: slides in place once the window has
collapsed to 1, performs the one-time collapse otherwise. -/
def SlidingWindowKeyValueCache_Update (cfg : SWConfig) (s : SWCacheState) : SWCacheState :=
  if s.windowSize = 1 then SlidingWindowKeyValueCache_Slide cfg s
  else SlidingWindowKeyValueCache_Collapse cfg s

/-- Handle-level state of a split `KV_Cache` bound to an execution request:
tensor handles are modelled as numeric identifiers, `nextId` is the
allocator's next fresh identifier, `inputs`/`outputs` are the execution
request's slot lists (`state_.inputs_` / `state_.outputs_`), and
`inputIndex`/`outputIndex` are the base indices recorded by `Add`. -/
structure KVCacheBindingState where
  pastPresentShareBuffer : Bool
  pasts : List Nat
  presents : List Nat
  inputs : List Nat
  outputs : List Nat
  inputIndex : Nat
  outputIndex : Nat
  shapeSeqLen : Nat
  nextId : Nat

/-- Indexed slot rebinding `state_.inputs_[base + i] = v`: writes the values
`vs` into consecutive positions of `l` starting at `base`. -/
def setSlots (l : List Nat) (base : Nat) (vs : List Nat) : List Nat :=
  vs.enum.foldl (fun acc iv => acc.set (base + iv.1) iv.2) l

/-- `KV_Cache::Update` at the tensor-handle level: an early exit leaves the
state untouched in shared-buffer mode; otherwise each past slot receives the
moved present handle (empty beam list) or a freshly allocated handle
(non-empty beam list), the sequence-length dimension is set to
`currentLength`, fresh present tensors are allocated, and the execution
request's input and output slots are rebound in place. -/
def KV_Cache_Update (s : KVCacheBindingState) (beamIndicesEmpty : Bool)
    (currentLength : Nat) : KVCacheBindingState :=
  if s.pastPresentShareBuffer then s
  else
    let n := s.presents.length
    let pasts' := if beamIndicesEmpty then s.presents
      else (List.range n).map (fun i => s.nextId + i)
    let nid := if beamIndicesEmpty then s.nextId else s.nextId + n
    let presents' := (List.range n).map (fun i => nid + i)
    { s with
      pasts := pasts'
      presents := presents'
      inputs := setSlots s.inputs s.inputIndex pasts'
      outputs := setSlots s.outputs s.outputIndex presents'
      shapeSeqLen := currentLength
      nextId := nid + n }

/-- The subset of `ONNXTensorElementDataType` values relevant to the cache
code paths: 32-bit float, half-precision float, unsigned byte, and two
representatives of the remaining (unhandled) element types. -/
inductive OnnxElementType where
  | f32
  | f16
  | u8
  | i32
  | f64
  deriving DecidableEq

/-- The two type-specialized instantiations of the beam-reorder gather. -/
inductive GatherScalarType where
  | f32
  | f16
  deriving DecidableEq

/-- The type dispatch shared by `KV_Cache_Combined::PickPastState` and
`KV_Cache::PickPastState`: the float instantiation if the declared input
type is 32-bit float, the `Ort::Float16_t` instantiation for every other
declared type. -/
def KV_Cache_PickPastStateDispatch (t : OnnxElementType) : GatherScalarType :=
  if t = OnnxElementType.f32 then GatherScalarType.f32 else GatherScalarType.f16

/-- A slot-name template containing exactly one `%d` conversion, split into
the text before and after it (every template in a real model configuration
has this form, e.g. `past_key_values.%d.key`). -/
structure NameTemplate where
  pre : String
  suf : String

/-- The string produced by formatting layer index `i` through a template. -/
def composedName (t : NameTemplate) (i : Nat) : String :=
  t.pre ++ toString i ++ t.suf

/-- `ComposeKeyValueName`: formats the layer index through the template into
a 64-byte buffer via snprintf; a formatted length of 64 or more is a hard
error (`std::runtime_error`), otherwise the formatted name is returned. -/
def ComposeKeyValueName (t : NameTemplate) (i : Nat) : Except String String :=
  if 64 ≤ (composedName t i).length then
    Except.error "Unable to compose key value name from the provided template"
  else Except.ok (composedName t i)

/-- The name-composition loop of `KV_Cache_Combined` and `Cross_Cache` for a
single template: one name per layer index, in loop order. -/
def composeNameList (t : NameTemplate) : List Nat → Except String (List String)
  | [] => Except.ok []
  | i :: rest =>
    match ComposeKeyValueName t i with
    | Except.error e => Except.error e
    | Except.ok n =>
      match composeNameList t rest with
      | Except.error e => Except.error e
      | Except.ok ns => Except.ok (n :: ns)

/-- The interleaved name-composition loop of `KV_Cache`, `Cross_Cache` and
`SlidingWindowKeyValueCache`: per layer index, the key-template name followed
by the value-template name. -/
def composeInterleavedNameList (t1 t2 : NameTemplate) :
    List Nat → Except String (List String)
  | [] => Except.ok []
  | i :: rest =>
    match ComposeKeyValueName t1 i with
    | Except.error e => Except.error e
    | Except.ok a =>
      match ComposeKeyValueName t2 i with
      | Except.error e => Except.error e
      | Except.ok b =>
        match composeInterleavedNameList t1 t2 rest with
        | Except.error e => Except.error e
        | Except.ok ns => Except.ok (a :: b :: ns)

/-- The named input/output slot lists produced by a cache constructor. -/
structure CacheNamesResult where
  inputNames : List String
  outputNames : List String
  deriving DecidableEq

/-- Name production of the `KV_Cache_Combined` constructor: one past name and
one present name per layer. -/
def KV_Cache_Combined_ctorNames (pastT presentT : NameTemplate) (L : Nat) :
    Except String CacheNamesResult :=
  match composeNameList pastT (List.range L) with
  | Except.error e => Except.error e
  | Except.ok ins =>
    match composeNameList presentT (List.range L) with
    | Except.error e => Except.error e
    | Except.ok outs => Except.ok ⟨ins, outs⟩

/-- Name production of the `Cross_Cache` constructor: cross past key/value
input names and cross present key/value output names, two per layer. -/
def Cross_Cache_ctorNames (cpkT cpvT cprkT cprvT : NameTemplate) (L : Nat) :
    Except String CacheNamesResult :=
  match composeInterleavedNameList cpkT cpvT (List.range L) with
  | Except.error e => Except.error e
  | Except.ok ins =>
    match composeInterleavedNameList cprkT cprvT (List.range L) with
    | Except.error e => Except.error e
    | Except.ok outs => Except.ok ⟨ins, outs⟩

/-- Name production and element-type check of the `SlidingWindowKeyValueCache`
constructor: names are composed first, then any declared input type other
than `uint8_t` raises `std::runtime_error`. -/
def SlidingWindowKeyValueCache_ctorNames (pkT pvT prkT prvT : NameTemplate)
    (L : Nat) (elemType : OnnxElementType) : Except String CacheNamesResult :=
  match composeInterleavedNameList pkT pvT (List.range L) with
  | Except.error e => Except.error e
  | Except.ok ins =>
    match composeInterleavedNameList prkT prvT (List.range L) with
    | Except.error e => Except.error e
    | Except.ok outs =>
      if elemType = OnnxElementType.u8 then Except.ok ⟨ins, outs⟩
      else Except.error "Expected input data type to be uint8_t for SlidingWindowKeyValueCache."

/-- Result of split `KV_Cache` construction: the effective shared-buffer
flag, whether a downgrade warning was emitted through the logging
collaborator, the slot names, and the element type derived from the
execution collaborator's declared input type for layer 0. -/
structure KVCacheCtorResult where
  pastPresentShareBuffer : Bool
  warned : Bool
  inputNames : List String
  outputNames : List String
  elemType : OnnxElementType
  deriving DecidableEq

/-- The split `KV_Cache` constructor: computes
`past_present_share_buffer_ = requested && (num_beams == 1 || type == "whisper")`,
emits a downgrade warning only when `g_log.enabled`, `g_log.warning` and the
computed flag differs from the request, composes the four name lists, and
stores the declared element type without validating it. -/
def KV_Cache_ctor (pkT pvT prkT prvT : NameTemplate) (L : Nat)
    (requestedShareBuffer : Bool) (numBeams : Nat) (modelType : String)
    (elemType : OnnxElementType) (logEnabled logWarning : Bool) :
    Except String KVCacheCtorResult :=
  let share := requestedShareBuffer && (numBeams == 1 || modelType == "whisper")
  let warned := logEnabled && logWarning && !(share == requestedShareBuffer)
  match composeInterleavedNameList pkT pvT (List.range L) with
  | Except.error e => Except.error e
  | Except.ok ins =>
    match composeInterleavedNameList prkT prvT (List.range L) with
    | Except.error e => Except.error e
    | Except.ok outs => Except.ok ⟨share, warned, ins, outs, elemType⟩

/-- `std::numeric_limits of size_t::max()` on the 64-bit targets the heap
code is built for. -/
def sizeTMax : Nat := 2 ^ 64 - 1

/-- The doubling loop of `ComputeNewCapacity`, with an explicit fuel bound on
the iteration count (the loop at least doubles a positive capacity each
iteration, so `desired + 1` units of fuel are always sufficient; see
`ComputeNewCapacityFuel_some`): while the capacity is below the desired
capacity, a capacity already at or above `size_t max / 2` raises
`E_OUTOFMEMORY`, otherwise the capacity doubles. -/
def ComputeNewCapacityFuel (desired : Nat) : Nat → Nat → Option Nat
  | 0, _ => none
  | fuel + 1, newCapacity =>
    if newCapacity < desired then
      if sizeTMax / 2 ≤ newCapacity then none
      else ComputeNewCapacityFuel desired fuel (newCapacity * 2)
    else some newCapacity

/-- `ComputeNewCapacity(existingCapacity, desiredCapacity)`: grows the
existing capacity by geometric doubling until it reaches the desired
capacity; `none` models the thrown `E_OUTOFMEMORY`. -/
def ComputeNewCapacity (existingCapacity desiredCapacity : Nat) : Option Nat :=
  ComputeNewCapacityFuel desiredCapacity (desiredCapacity + 1) existingCapacity

/-- Observable state of `DmlReadbackHeap`: the byte capacity `m_capacity` and
whether `m_readbackHeap` currently holds a buffer. -/
structure DmlReadbackHeapState where
  capacity : Nat
  heapAllocated : Bool

/-- The class invariant of `DmlReadbackHeap`: before the first allocation the
capacity is 0 (the constructor initializes it so, and the code asserts it);
afterwards the capacity is `c_initialCapacity` times a power of two. -/
def DmlReadbackHeapInv (initialCapacity : Nat) (s : DmlReadbackHeapState) : Prop :=
  (s.heapAllocated = false ∧ s.capacity = 0) ∨
    (s.heapAllocated = true ∧ ∃ k, s.capacity = initialCapacity * 2 ^ k)

/-- `DmlReadbackHeap::EnsureReadbackHeap(size)`: first call grows from
`c_initialCapacity`, later calls grow from the current capacity only when it
is insufficient (replacing the buffer), and a sufficient capacity leaves the
buffer untouched.  `none` models a thrown allocation failure. -/
def EnsureReadbackHeap (initialCapacity : Nat) (s : DmlReadbackHeapState)
    (size : Nat) : Option DmlReadbackHeapState :=
  if !s.heapAllocated then
    (ComputeNewCapacity initialCapacity size).map fun c => ⟨c, true⟩
  else if s.capacity < size then
    (ComputeNewCapacity s.capacity size).map fun c => ⟨c, true⟩
  else some s

/-- The `totalSize` accumulation of the multi-region
`DmlReadbackHeap::ReadbackFromGpu`: a `uint32_t` sum of the per-region
destination sizes, i.e. addition modulo `2 ^ 32`; this is the size passed to
`EnsureReadbackHeap` before the copies are issued. -/
def ReadbackFromGpuTotalSize (dstSizes : List Nat) : Nat :=
  dstSizes.foldl (fun totalSize size => (totalSize + size) % 2 ^ 32) 0

/-- Every entry of an enumerated list carries an index between the start
index and the start index plus the list length. -/
theorem fst_of_mem_enumFrom {α : Type} :
    ∀ (l : List α) (n : Nat) (p : Nat × α),
      p ∈ List.enumFrom n l → n ≤ p.1 ∧ p.1 < n + l.length
  | [], _, _, h => by simp [List.enumFrom] at h
  | a :: t, n, p, h => by
    rcases List.mem_cons.1 h with h | h
    · subst h
      refine ⟨Nat.le_refl n, ?_⟩
      simp only [List.length_cons]
      omega
    · have ih := fst_of_mem_enumFrom t (n + 1) p h
      simp only [List.length_cons]
      omega

/-- Addresses below every destination row written by the split-cache gather
loop are left unchanged. -/
theorem pickPastFold_untouched {α : Type} (present : Nat → α) (block : Nat) :
    ∀ (l : List (Nat × Nat)) (past : Nat → α) (a : Nat),
      (∀ p ∈ l, a < p.1 * block) → pickPastFold present block l past a = past a
  | [], _, _, _ => rfl
  | q :: t, past, a, h => by
    have hq : a < q.1 * block := h q (List.mem_cons_self q t)
    have ht : ∀ p ∈ t, a < p.1 * block := fun p hp => h p (List.mem_cons_of_mem q hp)
    rw [show pickPastFold present block (q :: t) past
        = pickPastFold present block t
            (copyRange present (q.2 * block) past (q.1 * block) block) from rfl]
    rw [pickPastFold_untouched present block t
      (copyRange present (q.2 * block) past (q.1 * block) block) a ht]
    simp only [copyRange]
    rw [if_neg (by omega)]

/-- Reading destination beam row `j` after the split-cache gather loop yields
the present content of beam row `beam[j]`. -/
theorem pickPastFold_read {α : Type} (present : Nat → α) (block : Nat) :
    ∀ (beam : List Nat) (start : Nat) (past : Nat → α) (j : Nat) (hj : j < beam.length)
      (o : Nat), o < block →
      pickPastFold present block (List.enumFrom start beam) past ((start + j) * block + o)
        = present (beam.get ⟨j, hj⟩ * block + o)
  | [], _, _, _, hj, _, _ => absurd hj (by simp)
  | b :: t, start, past, 0, hj, o, ho => by
    have e1 : (start + 0) * block = start * block := by ring
    have e2 : (start + 1) * block = start * block + block := by ring
    have hunt : ∀ p ∈ List.enumFrom (start + 1) t, (start + 0) * block + o < p.1 * block := by
      intro p hp
      have hb := fst_of_mem_enumFrom t (start + 1) p hp
      have h2 : (start + 1) * block ≤ p.1 * block := Nat.mul_le_mul_right block hb.1
      omega
    rw [show List.enumFrom start (b :: t) = (start, b) :: List.enumFrom (start + 1) t from rfl]
    rw [show pickPastFold present block ((start, b) :: List.enumFrom (start + 1) t) past
        = pickPastFold present block (List.enumFrom (start + 1) t)
            (copyRange present (b * block) past (start * block) block) from rfl]
    rw [pickPastFold_untouched present block (List.enumFrom (start + 1) t)
      (copyRange present (b * block) past (start * block) block)
      ((start + 0) * block + o) hunt]
    simp only [copyRange]
    rw [if_pos (by omega)]
    rw [show b * block + ((start + 0) * block + o - start * block) = b * block + o from by omega]
    rfl
  | b :: t, start, past, j + 1, hj, o, ho => by
    have e1 : (start + (j + 1)) * block + o = (start + 1 + j) * block + o := by ring_nf
    rw [show List.enumFrom start (b :: t) = (start, b) :: List.enumFrom (start + 1) t from rfl]
    rw [show pickPastFold present block ((start, b) :: List.enumFrom (start + 1) t) past
        = pickPastFold present block (List.enumFrom (start + 1) t)
            (copyRange present (b * block) past (start * block) block) from rfl]
    rw [e1]
    have hj' : j < t.length := by simpa using hj
    rw [pickPastFold_read present block t (start + 1)
      (copyRange present (b * block) past (start * block) block) j hj' o ho]
    rfl

/-- Addresses outside every key-half and value-half destination row written
by the combined-cache gather loop are left unchanged. -/
theorem pickPastFoldC_untouched {α : Type} (present : Nat → α) (block pks : Nat) :
    ∀ (l : List (Nat × Nat)) (past : Nat → α) (a : Nat),
      (∀ p ∈ l, (a < p.1 * block ∨ p.1 * block + block ≤ a) ∧
        (a < pks + p.1 * block ∨ pks + p.1 * block + block ≤ a)) →
      pickPastFoldC present block pks l past a = past a
  | [], _, _, _ => rfl
  | q :: t, past, a, h => by
    have hq := h q (List.mem_cons_self q t)
    have ht : ∀ p ∈ t, (a < p.1 * block ∨ p.1 * block + block ≤ a) ∧
        (a < pks + p.1 * block ∨ pks + p.1 * block + block ≤ a) :=
      fun p hp => h p (List.mem_cons_of_mem q hp)
    rw [show pickPastFoldC present block pks (q :: t) past
        = pickPastFoldC present block pks t
            (copyRange present (pks + q.2 * block)
              (copyRange present (q.2 * block) past (q.1 * block) block)
              (pks + q.1 * block) block) from rfl]
    rw [pickPastFoldC_untouched present block pks t _ a ht]
    simp only [copyRange]
    rw [if_neg (by omega), if_neg (by omega)]

/-- Reading the key half of destination beam row `j` after the combined-cache
gather loop yields the key half of present beam row `beam[j]`. -/
theorem pickPastFoldC_read_key {α : Type} (present : Nat → α) (block B : Nat) :
    ∀ (beam : List Nat) (start : Nat) (past : Nat → α) (j : Nat) (hj : j < beam.length)
      (o : Nat), o < block → start + beam.length ≤ B →
      pickPastFoldC present block (B * block) (List.enumFrom start beam) past
        ((start + j) * block + o)
        = present (beam.get ⟨j, hj⟩ * block + o)
  | [], _, _, _, hj, _, _, _ => absurd hj (by simp)
  | b :: t, start, past, 0, hj, o, ho, hB => by
    have e1 : (start + 0) * block = start * block := by ring
    have e2 : (start + 1) * block = start * block + block := by ring
    have hsB : start + 1 ≤ B := by
      simp only [List.length_cons] at hB
      omega
    have h3 : (start + 1) * block ≤ B * block := Nat.mul_le_mul_right block hsB
    have hunt : ∀ p ∈ List.enumFrom (start + 1) t,
        ((start + 0) * block + o < p.1 * block ∨ p.1 * block + block ≤ (start + 0) * block + o) ∧
        ((start + 0) * block + o < B * block + p.1 * block ∨
          B * block + p.1 * block + block ≤ (start + 0) * block + o) := by
      intro p hp
      have hb := fst_of_mem_enumFrom t (start + 1) p hp
      have h2 : (start + 1) * block ≤ p.1 * block := Nat.mul_le_mul_right block hb.1
      omega
    rw [show List.enumFrom start (b :: t) = (start, b) :: List.enumFrom (start + 1) t from rfl]
    rw [show pickPastFoldC present block (B * block)
          ((start, b) :: List.enumFrom (start + 1) t) past
        = pickPastFoldC present block (B * block) (List.enumFrom (start + 1) t)
            (copyRange present (B * block + b * block)
              (copyRange present (b * block) past (start * block) block)
              (B * block + start * block) block) from rfl]
    rw [pickPastFoldC_untouched present block (B * block) (List.enumFrom (start + 1) t)
      _ ((start + 0) * block + o) hunt]
    simp only [copyRange]
    rw [if_neg (by omega), if_pos (by omega)]
    rw [show b * block + ((start + 0) * block + o - start * block) = b * block + o from by omega]
    rfl
  | b :: t, start, past, j + 1, hj, o, ho, hB => by
    have e1 : (start + (j + 1)) * block + o = (start + 1 + j) * block + o := by ring_nf
    have hB' : start + 1 + t.length ≤ B := by
      simp only [List.length_cons] at hB
      omega
    rw [show List.enumFrom start (b :: t) = (start, b) :: List.enumFrom (start + 1) t from rfl]
    rw [show pickPastFoldC present block (B * block)
          ((start, b) :: List.enumFrom (start + 1) t) past
        = pickPastFoldC present block (B * block) (List.enumFrom (start + 1) t)
            (copyRange present (B * block + b * block)
              (copyRange present (b * block) past (start * block) block)
              (B * block + start * block) block) from rfl]
    rw [e1]
    have hj' : j < t.length := by simpa using hj
    rw [pickPastFoldC_read_key present block B t (start + 1)
      (copyRange present (B * block + b * block)
        (copyRange present (b * block) past (start * block) block)
        (B * block + start * block) block) j hj' o ho hB']
    rfl

/-- Reading the value half of destination beam row `j` after the
combined-cache gather loop yields the value half of present beam row
`beam[j]`. -/
theorem pickPastFoldC_read_value {α : Type} (present : Nat → α) (block B : Nat) :
    ∀ (beam : List Nat) (start : Nat) (past : Nat → α) (j : Nat) (hj : j < beam.length)
      (o : Nat), o < block → start + beam.length ≤ B →
      pickPastFoldC present block (B * block) (List.enumFrom start beam) past
        (B * block + (start + j) * block + o)
        = present (B * block + beam.get ⟨j, hj⟩ * block + o)
  | [], _, _, _, hj, _, _, _ => absurd hj (by simp)
  | b :: t, start, past, 0, hj, o, ho, hB => by
    have e1 : (start + 0) * block = start * block := by ring
    have e2 : (start + 1) * block = start * block + block := by ring
    have hsB : start + 1 ≤ B := by
      simp only [List.length_cons] at hB
      omega
    have h3 : (start + 1) * block ≤ B * block := Nat.mul_le_mul_right block hsB
    have hunt : ∀ p ∈ List.enumFrom (start + 1) t,
        (B * block + (start + 0) * block + o < p.1 * block ∨
          p.1 * block + block ≤ B * block + (start + 0) * block + o) ∧
        (B * block + (start + 0) * block + o < B * block + p.1 * block ∨
          B * block + p.1 * block + block ≤ B * block + (start + 0) * block + o) := by
      intro p hp
      have hb := fst_of_mem_enumFrom t (start + 1) p hp
      have h2 : (start + 1) * block ≤ p.1 * block := Nat.mul_le_mul_right block hb.1
      have hpB : p.1 + 1 ≤ B := by
        simp only [List.length_cons] at hB
        omega
      have e4 : (p.1 + 1) * block = p.1 * block + block := by ring
      have h4 : (p.1 + 1) * block ≤ B * block := Nat.mul_le_mul_right block hpB
      omega
    rw [show List.enumFrom start (b :: t) = (start, b) :: List.enumFrom (start + 1) t from rfl]
    rw [show pickPastFoldC present block (B * block)
          ((start, b) :: List.enumFrom (start + 1) t) past
        = pickPastFoldC present block (B * block) (List.enumFrom (start + 1) t)
            (copyRange present (B * block + b * block)
              (copyRange present (b * block) past (start * block) block)
              (B * block + start * block) block) from rfl]
    rw [pickPastFoldC_untouched present block (B * block) (List.enumFrom (start + 1) t)
      _ (B * block + (start + 0) * block + o) hunt]
    simp only [copyRange]
    rw [if_pos (by omega)]
    rw [show B * block + b * block + (B * block + (start + 0) * block + o
          - (B * block + start * block)) = B * block + b * block + o from by omega]
    rfl
  | b :: t, start, past, j + 1, hj, o, ho, hB => by
    have e1 : B * block + (start + (j + 1)) * block + o
        = B * block + (start + 1 + j) * block + o := by ring_nf
    have hB' : start + 1 + t.length ≤ B := by
      simp only [List.length_cons] at hB
      omega
    rw [show List.enumFrom start (b :: t) = (start, b) :: List.enumFrom (start + 1) t from rfl]
    rw [show pickPastFoldC present block (B * block)
          ((start, b) :: List.enumFrom (start + 1) t) past
        = pickPastFoldC present block (B * block) (List.enumFrom (start + 1) t)
            (copyRange present (B * block + b * block)
              (copyRange present (b * block) past (start * block) block)
              (B * block + start * block) block) from rfl]
    rw [e1]
    have hj' : j < t.length := by simpa using hj
    rw [pickPastFoldC_read_value present block B t (start + 1)
      (copyRange present (B * block + b * block)
        (copyRange present (b * block) past (start * block) block)
        (B * block + start * block) block) j hj' o ho hB']
    rfl

/-- C1: advancing the Combined or Split KV cache with a non-empty beam-index
list of length batch×beam builds a past tensor in which destination beam row
`j` equals present beam row `beamIndices[j]`, independently for the key half
and the value half (for the Combined cache the two halves of the interleaved
tensor; for the Split cache each of the separately gathered key and value
tensors behaves as the third conjunct states). -/
theorem claim_C1_beam_reorder_rows {α : Type} (B block : Nat) (beamIndices : List Nat)
    (hlen : beamIndices.length = B) (j : Nat) (hj : j < beamIndices.length)
    (o : Nat) (ho : o < block) (present past0 presentS past0S : Nat → α) :
    KV_Cache_Combined_PickPastState present block (B * block) beamIndices past0
        (j * block + o)
      = present (beamIndices.get ⟨j, hj⟩ * block + o) ∧
    KV_Cache_Combined_PickPastState present block (B * block) beamIndices past0
        (B * block + j * block + o)
      = present (B * block + beamIndices.get ⟨j, hj⟩ * block + o) ∧
    KV_Cache_PickPastState presentS block beamIndices past0S (j * block + o)
      = presentS (beamIndices.get ⟨j, hj⟩ * block + o) := by
  refine ⟨?_, ?_, ?_⟩
  · show pickPastFoldC present block (B * block) (List.enumFrom 0 beamIndices) past0
        (j * block + o) = present (beamIndices.get ⟨j, hj⟩ * block + o)
    have h := pickPastFoldC_read_key present block B beamIndices 0 past0 j hj o ho (by omega)
    simpa using h
  · show pickPastFoldC present block (B * block) (List.enumFrom 0 beamIndices) past0
        (B * block + j * block + o)
      = present (B * block + beamIndices.get ⟨j, hj⟩ * block + o)
    have h := pickPastFoldC_read_value present block B beamIndices 0 past0 j hj o ho (by omega)
    simpa using h
  · show pickPastFold presentS block (List.enumFrom 0 beamIndices) past0S (j * block + o)
      = presentS (beamIndices.get ⟨j, hj⟩ * block + o)
    have h := pickPastFold_read presentS block beamIndices 0 past0S j hj o ho
    simpa using h

/-- Witness for C1 at a concrete batch×beam = 2, block = 1 cache with
beam_indices = [1, 0]: destination row 0 reads source row 1 in both halves
of the combined tensor and in the split tensor. -/
theorem claim_C1_beam_reorder_rows_witness :
    KV_Cache_Combined_PickPastState (fun i => i) 1 2 [1, 0] (fun _ => 99) 0 = 1 ∧
    KV_Cache_Combined_PickPastState (fun i => i) 1 2 [1, 0] (fun _ => 99) 2 = 3 ∧
    KV_Cache_PickPastState (fun i => i) 1 [1, 0] (fun _ => 99) 0 = 1 := by
  have h := claim_C1_beam_reorder_rows 2 1 [1, 0] rfl 0 (by decide) 0 (by decide)
    (fun i => i) (fun _ => 99) (fun i => i) (fun _ => 99)
  simpa using h

/-- C4: advancing one step with the identity beam-index list yields past
cache content identical, at every address of the tensor extent, to advancing
with an empty beam-index list, for both the Combined and the Split cache. -/
theorem claim_C4_identity_vs_empty {α : Type} (B block : Nat)
    (present past0 presentS past0S : Nat → α) (addr addrS : Nat)
    (haddr : addr < 2 * (B * block)) (haddrS : addrS < B * block) :
    KV_Cache_Combined_UpdatePastContent (List.range B) present past0 block (B * block) addr
      = KV_Cache_Combined_UpdatePastContent [] present past0 block (B * block) addr ∧
    KV_Cache_UpdatePastContent (List.range B) presentS past0S block addrS
      = KV_Cache_UpdatePastContent [] presentS past0S block addrS := by
  have hB : 0 < B := by
    rcases Nat.eq_zero_or_pos B with h | h
    · subst h
      simp at haddrS
    · exact h
  have hblock : 0 < block := by
    rcases Nat.eq_zero_or_pos block with h | h
    · subst h
      simp at haddrS
    · exact h
  have hne : ¬(List.range B).isEmpty = true := by
    simp only [List.isEmpty_iff, List.range_eq_nil]
    omega
  constructor
  · rw [KV_Cache_Combined_UpdatePastContent, if_neg hne,
      KV_Cache_Combined_UpdatePastContent, if_pos (by simp)]
    show pickPastFoldC present block (B * block) (List.enumFrom 0 (List.range B)) past0 addr
      = present addr
    rcases Nat.lt_or_ge addr (B * block) with hk | hv
    · have hk' : addr < block * B := by
        rw [Nat.mul_comm]
        exact hk
      have hj : addr / block < B := Nat.div_lt_of_lt_mul hk'
      have hj' : addr / block < (List.range B).length := by simpa using hj
      have h := pickPastFoldC_read_key present block B (List.range B) 0 past0
        (addr / block) hj' (addr % block) (Nat.mod_lt addr hblock) (by simp)
      rw [List.get_range (addr / block)] at h
      have hdm := Nat.div_add_mod addr block
      have e0 : (0 + addr / block) * block = block * (addr / block) := by ring
      have e1 : (0 + addr / block) * block + addr % block = addr := by omega
      have e2 : addr / block * block + addr % block = addr := by
        have e3 : addr / block * block = block * (addr / block) := by ring
        omega
      rw [e1, e2] at h
      exact h
    · have hr : addr - B * block < block * B := by
        rw [Nat.mul_comm block B]
        omega
      have hj : (addr - B * block) / block < B := Nat.div_lt_of_lt_mul hr
      have hj' : (addr - B * block) / block < (List.range B).length := by simpa using hj
      have h := pickPastFoldC_read_value present block B (List.range B) 0 past0
        ((addr - B * block) / block) hj' ((addr - B * block) % block)
        (Nat.mod_lt _ hblock) (by simp)
      rw [List.get_range ((addr - B * block) / block)] at h
      have hdm := Nat.div_add_mod (addr - B * block) block
      have e0 : (0 + (addr - B * block) / block) * block
          = block * ((addr - B * block) / block) := by ring
      have e1 : B * block + (0 + (addr - B * block) / block) * block
          + (addr - B * block) % block = addr := by omega
      have e2 : B * block + (addr - B * block) / block * block
          + (addr - B * block) % block = addr := by
        have e3 : (addr - B * block) / block * block
            = block * ((addr - B * block) / block) := by ring
        omega
      rw [e1, e2] at h
      exact h
  · rw [KV_Cache_UpdatePastContent, if_neg hne, KV_Cache_UpdatePastContent, if_pos (by simp)]
    show pickPastFold presentS block (List.enumFrom 0 (List.range B)) past0S addrS
      = presentS addrS
    have hk' : addrS < block * B := by
      rw [Nat.mul_comm]
      exact haddrS
    have hj : addrS / block < B := Nat.div_lt_of_lt_mul hk'
    have hj' : addrS / block < (List.range B).length := by simpa using hj
    have h := pickPastFold_read presentS block (List.range B) 0 past0S
      (addrS / block) hj' (addrS % block) (Nat.mod_lt addrS hblock)
    rw [List.get_range (addrS / block)] at h
    have hdm := Nat.div_add_mod addrS block
    have e0 : (0 + addrS / block) * block = block * (addrS / block) := by ring
    have e1 : (0 + addrS / block) * block + addrS % block = addrS := by omega
    have e2 : addrS / block * block + addrS % block = addrS := by
      have e3 : addrS / block * block = block * (addrS / block) := by ring
      omega
    rw [e1, e2] at h
    exact h

/-- Witness for C4 at batch×beam = 1, block = 1: identity-list advance and
empty-list advance agree at every in-extent address of both caches. -/
theorem claim_C4_identity_vs_empty_witness :
    KV_Cache_Combined_UpdatePastContent (List.range 1) (fun i => 10 + i) (fun _ => 0) 1
        (1 * 1) 1
      = KV_Cache_Combined_UpdatePastContent [] (fun i => 10 + i) (fun _ => 0) 1 (1 * 1) 1 ∧
    KV_Cache_UpdatePastContent (List.range 1) (fun i => 20 + i) (fun _ => 7) 1 0
      = KV_Cache_UpdatePastContent [] (fun i => 20 + i) (fun _ => 7) 1 0 :=
  claim_C4_identity_vs_empty 1 1 (fun i => 10 + i) (fun _ => 0) (fun i => 20 + i)
    (fun _ => 7) 1 0 (by decide) (by decide)

/-- C9 amended: beam-index values are not validated by `PickPastState`; a
beam index at or beyond batch×beam makes the gather read the present tensor
at source offsets at or beyond the tensor extent `B * block`, completing
silently instead of surfacing an error. -/
theorem claim_C9_no_range_check {α : Type} (block B bi o : Nat) (hbi : B ≤ bi)
    (ho : o < block) (present past0 : Nat → α) :
    KV_Cache_PickPastState present block [bi] past0 o = present (bi * block + o) ∧
    B * block ≤ bi * block := by
  constructor
  · show pickPastFold present block (List.enumFrom 0 [bi]) past0 o = present (bi * block + o)
    have h := pickPastFold_read present block [bi] 0 past0 0 (by simp) o ho
    simpa using h
  · exact Nat.mul_le_mul_right block hbi

/-- Witness for the amended C9: a single out-of-range beam index 5 on a
batch×beam = 2, block = 2 cache reads source offset 10, beyond the 4-element
extent, and returns normally. -/
theorem claim_C9_no_range_check_witness :
    KV_Cache_PickPastState (fun i => 100 + i) 2 [5] (fun _ => 0) 1 = 111 ∧
    2 * 2 ≤ 5 * 2 := by
  have h := claim_C9_no_range_check 2 2 5 1 (by decide) (by decide)
    (fun i => 100 + i) (fun _ => 0)
  simpa using h

/-- C9 counterexample: with batch×beam = 2 and block = 2 (tensor extent 4),
the beam-index list [5] is out of range, yet the update completes and fills
destination row 0 from source offsets 10 and 11 — a silent out-of-range
access, not a surfaced error, refuting the claimed fail-fast behaviour. -/
theorem claim_C9_counterexample :
    KV_Cache_PickPastState (fun i => 100 + i) 2 [5] (fun _ => 0) 0 = 110 ∧
    KV_Cache_PickPastState (fun i => 100 + i) 2 [5] (fun _ => 0) 1 = 111 ∧
    2 * 2 ≤ 5 * 2 := by
  decide

/-- Addresses below every chunk row written by the collapse chunk loop are
left unchanged. -/
theorem collapseKeyFold_untouched (C kIn3 kOut3 W : Nat) (oldIn oldOut : Nat → Nat) :
    ∀ (l : List Nat) (dst : Nat → Nat) (a : Nat),
      (∀ k ∈ l, a < k * (C - 1)) →
      l.foldl (collapseKeyStep C kIn3 kOut3 W oldIn oldOut) dst a = dst a
  | [], _, _, _ => rfl
  | q :: t, dst, a, h => by
    have hq : a < q * (C - 1) := h q (List.mem_cons_self q t)
    have ht : ∀ k ∈ t, a < k * (C - 1) := fun k hk => h k (List.mem_cons_of_mem q hk)
    rw [List.foldl_cons]
    rw [collapseKeyFold_untouched C kIn3 kOut3 W oldIn oldOut t
      (collapseKeyStep C kIn3 kOut3 W oldIn oldOut dst q) a ht]
    simp only [collapseKeyStep, copyRange]
    rw [if_neg (by omega), if_neg (by omega)]

/-- Reading the tail `W` elements of chunk row `j` after the collapse chunk
loop (at the window-size-1 geometry, with the pre-collapse key-in width
`C - W` and key-out width `W`) yields the pre-collapse key-out content of
that chunk in original order. -/
theorem collapseKeyFold_read (C W : Nat) (hW : 0 < W) (hWC : W < C)
    (oldIn oldOut : Nat → Nat) :
    ∀ (n s : Nat) (dst : Nat → Nat) (j : Nat), s ≤ j → j < s + n →
      ∀ t0, t0 < W →
      (List.range' s n).foldl (collapseKeyStep C (C - W) W W oldIn oldOut) dst
          (j * (C - 1) + (C - W - 1) + t0)
        = oldOut (j * W + t0)
  | 0, s, dst, j, hsj, hjn, t0, ht0 => absurd hjn (by omega)
  | n + 1, s, dst, j, hsj, hjn, t0, ht0 => by
    rw [List.range'_succ]
    rw [List.foldl_cons]
    rcases Nat.eq_or_lt_of_le hsj with heq | hlt
    · subst heq
      have hunt : ∀ k ∈ List.range' (s + 1) n,
          s * (C - 1) + (C - W - 1) + t0 < k * (C - 1) := by
        intro k hk
        have hb := List.mem_range'_1.1 hk
        have h2 : (s + 1) * (C - 1) ≤ k * (C - 1) := Nat.mul_le_mul_right (C - 1) hb.1
        have e2 : (s + 1) * (C - 1) = s * (C - 1) + (C - 1) := by ring
        omega
      rw [collapseKeyFold_untouched C (C - W) W W oldIn oldOut (List.range' (s + 1) n)
        (collapseKeyStep C (C - W) W W oldIn oldOut dst s)
        (s * (C - 1) + (C - W - 1) + t0) hunt]
      simp only [collapseKeyStep, copyRange]
      rw [if_pos (by omega)]
      rw [show s * W + (s * (C - 1) + (C - W - 1) + t0 - (s * (C - 1) + (C - W - 1)))
          = s * W + t0 from by omega]
    · rw [collapseKeyFold_read C W hW hWC oldIn oldOut n (s + 1)
        (collapseKeyStep C (C - W) W W oldIn oldOut dst s) j hlt (by omega) t0 ht0]

/-- C2: with `window_size = W > 1` and context length `C`, a single advance
call takes every layer's key-in shape from
`[num_kv_heads, 1, head_size, C - W]` to `[num_kv_heads, 1, head_size, C - 1]`,
sets the window size to 1, and makes the tail `W` elements of each chunk row
of the new key-in (row width `C - 1`, tail starting at offset
`(C - 1) - W = C - W - 1`) equal the pre-collapse key-out content of that row
in original order. -/
theorem claim_C2_sliding_collapse (cfg : SWConfig) (s : SWCacheState) (W : Nat)
    (hW : s.windowSize = W) (hW1 : 1 < W) (hWC : W < cfg.contextLength)
    (hkin : s.keyShapeIn = [cfg.numKVHeads, 1, cfg.headSize, cfg.contextLength - W])
    (hkout : s.keyShapeOut = [cfg.numKVHeads, 1, cfg.headSize, W]) :
    (SlidingWindowKeyValueCache_Update cfg s).windowSize = 1 ∧
    (SlidingWindowKeyValueCache_Update cfg s).keyShapeIn
      = [cfg.numKVHeads, 1, cfg.headSize, cfg.contextLength - 1] ∧
    ∀ layer, layer < cfg.layerCount →
      ∀ j, j < cfg.numKVHeads * cfg.headSize → ∀ t0, t0 < W →
      (SlidingWindowKeyValueCache_Update cfg s).keyIn layer
          (j * (cfg.contextLength - 1) + (cfg.contextLength - W - 1) + t0)
        = s.keyOut layer (j * W + t0) := by
  have hbranch : ¬s.windowSize = 1 := by omega
  rw [SlidingWindowKeyValueCache_Update, if_neg hbranch]
  refine ⟨rfl, rfl, ?_⟩
  intro layer hlayer j hj t0 ht0
  show (if layer < cfg.layerCount then
      slidingCollapseKeyIn cfg (shapeDim s.keyShapeIn 3) (shapeDim s.keyShapeOut 3)
        s.windowSize (s.keyIn layer) (s.keyOut layer)
    else s.keyIn layer)
      (j * (cfg.contextLength - 1) + (cfg.contextLength - W - 1) + t0)
    = s.keyOut layer (j * W + t0)
  rw [if_pos hlayer]
  rw [hkin, hkout, hW]
  rw [show shapeDim [cfg.numKVHeads, 1, cfg.headSize, cfg.contextLength - W] 3
      = cfg.contextLength - W from rfl]
  rw [show shapeDim [cfg.numKVHeads, 1, cfg.headSize, W] 3 = W from rfl]
  rw [slidingCollapseKeyIn, List.range_eq_range' (cfg.numKVHeads * cfg.headSize)]
  exact collapseKeyFold_read cfg.contextLength W (by omega) hWC
    (s.keyIn layer) (s.keyOut layer) (cfg.numKVHeads * cfg.headSize) 0 cfg.uninit j
    (Nat.zero_le j) (by omega) t0 ht0

/-- Witness for C2: a one-layer, one-head, head-size-1 cache with C = 3 and
W = 2 collapses to key-in width 2, window size 1, with the two tail bytes of
the new key-in row equal to the pre-collapse key-out row. -/
theorem claim_C2_sliding_collapse_witness :
    (SlidingWindowKeyValueCache_Update ⟨1, 1, 3, 1, fun _ => 55⟩
        ⟨2, [1, 1, 1, 1], [1, 1, 1, 2], [1, 1, 1, 1], [1, 1, 2, 1],
          (fun _ i => 10 + i), (fun _ i => 20 + i),
          (fun _ i => 50 + i), (fun _ i => 60 + i)⟩).windowSize = 1 ∧
    (SlidingWindowKeyValueCache_Update ⟨1, 1, 3, 1, fun _ => 55⟩
        ⟨2, [1, 1, 1, 1], [1, 1, 1, 2], [1, 1, 1, 1], [1, 1, 2, 1],
          (fun _ i => 10 + i), (fun _ i => 20 + i),
          (fun _ i => 50 + i), (fun _ i => 60 + i)⟩).keyShapeIn = [1, 1, 1, 3 - 1] ∧
    ∀ layer, layer < 1 → ∀ j, j < 1 * 1 → ∀ t0, t0 < 2 →
      (SlidingWindowKeyValueCache_Update ⟨1, 1, 3, 1, fun _ => 55⟩
          ⟨2, [1, 1, 1, 1], [1, 1, 1, 2], [1, 1, 1, 1], [1, 1, 2, 1],
            (fun _ i => 10 + i), (fun _ i => 20 + i),
            (fun _ i => 50 + i), (fun _ i => 60 + i)⟩).keyIn layer
          (j * (3 - 1) + (3 - 2 - 1) + t0)
        = (fun _ i => 50 + i : Nat → Nat → Nat) layer (j * 2 + t0) :=
  claim_C2_sliding_collapse ⟨1, 1, 3, 1, fun _ => 55⟩
    ⟨2, [1, 1, 1, 1], [1, 1, 1, 2], [1, 1, 1, 1], [1, 1, 2, 1],
      (fun _ i => 10 + i), (fun _ i => 20 + i),
      (fun _ i => 50 + i), (fun _ i => 60 + i)⟩ 2 rfl (by decide) (by decide) rfl rfl

/-- A single `KV_Cache::Update` call in shared-buffer mode returns the state
unchanged (the function early-exits). -/
theorem KV_Cache_Update_shared_id (s : KVCacheBindingState)
    (hs : s.pastPresentShareBuffer = true) (be : Bool) (len : Nat) :
    KV_Cache_Update s be len = s := by
  rw [KV_Cache_Update, if_pos hs]

/-- C3: for a split cache in shared-buffer mode, any sequence of advance
calls (each with arbitrary beam-index emptiness and new length) leaves the
tensor handle bound to every input and output slot unchanged. -/
theorem claim_C3_shared_buffer_noop (s : KVCacheBindingState)
    (hs : s.pastPresentShareBuffer = true) (calls : List (Bool × Nat)) :
    (calls.foldl (fun st c => KV_Cache_Update st c.1 c.2) s).inputs = s.inputs ∧
    (calls.foldl (fun st c => KV_Cache_Update st c.1 c.2) s).outputs = s.outputs := by
  have hfold : calls.foldl (fun st c => KV_Cache_Update st c.1 c.2) s = s := by
    induction calls with
    | nil => rfl
    | cons c t ih =>
      rw [List.foldl_cons, KV_Cache_Update_shared_id s hs c.1 c.2]
      exact ih
  rw [hfold]
  exact ⟨rfl, rfl⟩

/-- Witness for C3: a concrete shared-buffer state survives two advance
calls (one with empty and one with non-empty beam indices) with identical
input and output slot bindings. -/
theorem claim_C3_shared_buffer_noop_witness :
    ([(true, 9), (false, 11)].foldl (fun st c => KV_Cache_Update st c.1 c.2)
        ⟨true, [1, 2], [1, 2], [3, 4], [5, 6], 0, 0, 8, 10⟩).inputs
      = (⟨true, [1, 2], [1, 2], [3, 4], [5, 6], 0, 0, 8, 10⟩ : KVCacheBindingState).inputs ∧
    ([(true, 9), (false, 11)].foldl (fun st c => KV_Cache_Update st c.1 c.2)
        ⟨true, [1, 2], [1, 2], [3, 4], [5, 6], 0, 0, 8, 10⟩).outputs
      = (⟨true, [1, 2], [1, 2], [3, 4], [5, 6], 0, 0, 8, 10⟩ : KVCacheBindingState).outputs :=
  claim_C3_shared_buffer_noop ⟨true, [1, 2], [1, 2], [3, 4], [5, 6], 0, 0, 8, 10⟩ rfl
    [(true, 9), (false, 11)]

/-- Folding the uint32 accumulation over a list from any in-range
accumulator computes the modular sum. -/
theorem readbackFold_mod_sum :
    ∀ (l : List Nat) (acc : Nat), acc < 2 ^ 32 →
      l.foldl (fun a sz => (a + sz) % 2 ^ 32) acc = (acc + l.sum) % 2 ^ 32
  | [], acc, h => by
    simp only [List.foldl_nil, List.sum_nil, Nat.add_zero]
    omega
  | sz :: t, acc, h => by
    rw [List.foldl_cons]
    rw [readbackFold_mod_sum t ((acc + sz) % 2 ^ 32) (Nat.mod_lt _ (by norm_num))]
    rw [List.sum_cons, Nat.mod_add_mod, Nat.add_assoc]

/-- C10: the multi-region readback's capacity request is the uint32
(modulo `2 ^ 32`) sum of the per-region destination sizes: it equals the
true total for every region list whose total is below `2 ^ 32`, and for a
region list totalling `2 ^ 32` it wraps to 0, strictly below the true
total. -/
theorem claim_C10_u32_total :
    (∀ sizes : List Nat, (∀ sz ∈ sizes, sz < 2 ^ 32) →
      ReadbackFromGpuTotalSize sizes = sizes.sum % 2 ^ 32) ∧
    (∀ sizes : List Nat, (∀ sz ∈ sizes, sz < 2 ^ 32) → sizes.sum < 2 ^ 32 →
      ReadbackFromGpuTotalSize sizes = sizes.sum) ∧
    (∃ sizes : List Nat, (∀ sz ∈ sizes, sz < 2 ^ 32) ∧ 2 ^ 32 ≤ sizes.sum ∧
      ReadbackFromGpuTotalSize sizes < sizes.sum) := by
  have hmain : ∀ sizes : List Nat, ReadbackFromGpuTotalSize sizes = sizes.sum % 2 ^ 32 := by
    intro sizes
    rw [ReadbackFromGpuTotalSize, readbackFold_mod_sum sizes 0 (by norm_num), Nat.zero_add]
  refine ⟨fun sizes _ => hmain sizes, ?_, ?_⟩
  · intro sizes _ hlt
    rw [hmain sizes, Nat.mod_eq_of_lt hlt]
  · refine ⟨[2 ^ 32 - 1, 1], ?_, ?_, ?_⟩
    · decide
    · decide
    · rw [hmain [2 ^ 32 - 1, 1]]
      decide

/-- `ComputeNewCapacity`'s doubling loop, when it returns a capacity, returns
one at least as large as the desired capacity and the starting capacity, and
equal to the starting capacity times a power of two. -/
theorem ComputeNewCapacityFuel_some (desired : Nat) :
    ∀ (fuel cap c : Nat), ComputeNewCapacityFuel desired fuel cap = some c →
      desired ≤ c ∧ cap ≤ c ∧ ∃ k, c = cap * 2 ^ k
  | 0, cap, c, h => by simp [ComputeNewCapacityFuel] at h
  | fuel + 1, cap, c, h => by
    simp only [ComputeNewCapacityFuel] at h
    by_cases h1 : cap < desired
    · rw [if_pos h1] at h
      by_cases h2 : sizeTMax / 2 ≤ cap
      · rw [if_pos h2] at h
        exact absurd h (by simp)
      · rw [if_neg h2] at h
        obtain ⟨hd, hc, k, hk⟩ := ComputeNewCapacityFuel_some desired fuel (cap * 2) c h
        refine ⟨hd, by omega, k + 1, ?_⟩
        rw [hk]
        ring
    · rw [if_neg h1] at h
      obtain rfl := Option.some.inj h
      exact ⟨by omega, Nat.le_refl cap, 0, by ring⟩

/-- With a positive starting capacity, enough fuel and a desired capacity
that never forces the overflow guard, the doubling loop terminates with a
result (the loop at least doubles a positive capacity each iteration). -/
theorem ComputeNewCapacityFuel_reaches (desired : Nat) :
    ∀ (fuel cap : Nat), 0 < cap → desired ≤ cap + fuel → desired ≤ sizeTMax / 2 →
      ∃ c, ComputeNewCapacityFuel desired (fuel + 1) cap = some c
  | 0, cap, hc, hcap, _ => by
    refine ⟨cap, ?_⟩
    simp only [ComputeNewCapacityFuel]
    rw [if_neg (by omega)]
  | fuel + 1, cap, hc, hcap, hd => by
    by_cases h1 : cap < desired
    · have h2 : ¬sizeTMax / 2 ≤ cap := by omega
      obtain ⟨c, hcrec⟩ := ComputeNewCapacityFuel_reaches desired fuel (cap * 2)
        (by omega) (by omega) hd
      refine ⟨c, ?_⟩
      simp only [ComputeNewCapacityFuel]
      rw [if_pos h1, if_neg h2]
      exact hcrec
    · refine ⟨cap, ?_⟩
      simp only [ComputeNewCapacityFuel]
      rw [if_neg h1]

/-- C6: under the readback-heap invariant, a successful `EnsureReadbackHeap`
never shrinks the capacity, always reaches at least the requested size, and
always yields a power-of-two multiple of the initial capacity; a request not
exceeding `size_t max / 2` always succeeds; and a doubling step whose
capacity already reached `size_t max / 2` while still short of the request
fails with the fatal allocation error instead of truncating. -/
theorem claim_C6_capacity_growth (initialCapacity : Nat) (s : DmlReadbackHeapState)
    (size : Nat) (hinit : 0 < initialCapacity)
    (hinv : DmlReadbackHeapInv initialCapacity s) :
    (∀ s', EnsureReadbackHeap initialCapacity s size = some s' →
      s.capacity ≤ s'.capacity ∧ size ≤ s'.capacity ∧
        ∃ k, s'.capacity = initialCapacity * 2 ^ k) ∧
    (size ≤ sizeTMax / 2 → ∃ s', EnsureReadbackHeap initialCapacity s size = some s') ∧
    (∀ cap, sizeTMax / 2 ≤ cap → cap < size → ComputeNewCapacity cap size = none) := by
  refine ⟨?_, ?_, ?_⟩
  · intro s' h
    rcases hinv with ⟨hA, hcap0⟩ | ⟨hA, k, hk⟩
    · simp only [EnsureReadbackHeap, hA, Bool.not_false, if_true] at h
      obtain ⟨c, hc, hs'⟩ := Option.map_eq_some'.1 h
      obtain ⟨hd, hinitle, m, hm⟩ := ComputeNewCapacityFuel_some size (size + 1)
        initialCapacity c hc
      subst hs'
      exact ⟨by omega, hd, m, hm⟩
    · simp only [EnsureReadbackHeap, hA, Bool.not_true, if_false] at h
      by_cases hlt : s.capacity < size
      · rw [if_pos hlt] at h
        obtain ⟨c, hc, hs'⟩ := Option.map_eq_some'.1 h
        obtain ⟨hd, hcaple, m, hm⟩ := ComputeNewCapacityFuel_some size (size + 1)
          s.capacity c hc
        subst hs'
        refine ⟨hcaple, hd, k + m, ?_⟩
        show c = initialCapacity * 2 ^ (k + m)
        rw [hm, hk, pow_add]
        ring
      · rw [if_neg hlt] at h
        obtain rfl := Option.some.inj h
        exact ⟨Nat.le_refl _, by omega, k, hk⟩
  · intro hsize
    rcases hinv with ⟨hA, hcap0⟩ | ⟨hA, k, hk⟩
    · obtain ⟨c, hc⟩ := ComputeNewCapacityFuel_reaches size size initialCapacity hinit
        (by omega) hsize
      refine ⟨⟨c, true⟩, ?_⟩
      simp only [EnsureReadbackHeap, hA, Bool.not_false, if_true]
      rw [show ComputeNewCapacity initialCapacity size
          = ComputeNewCapacityFuel size (size + 1) initialCapacity from rfl, hc]
      rfl
    · by_cases hlt : s.capacity < size
      · have hcappos : 0 < s.capacity := by
          have : 0 < initialCapacity * 2 ^ k := Nat.mul_pos hinit (Nat.pos_pow_of_pos k (by omega))
          omega
        obtain ⟨c, hc⟩ := ComputeNewCapacityFuel_reaches size size s.capacity hcappos
          (by omega) hsize
        refine ⟨⟨c, true⟩, ?_⟩
        simp only [EnsureReadbackHeap, hA, Bool.not_true, if_false]
        rw [if_pos hlt]
        rw [show ComputeNewCapacity s.capacity size
            = ComputeNewCapacityFuel size (size + 1) s.capacity from rfl, hc]
        rfl
      · refine ⟨s, ?_⟩
        simp only [EnsureReadbackHeap, hA, Bool.not_true, if_false]
        rw [if_neg hlt]
        rfl
  · intro cap h1 h2
    show ComputeNewCapacityFuel size (size + 1) cap = none
    simp only [ComputeNewCapacityFuel]
    rw [if_pos h2, if_pos h1]

/-- Witness for C6: from the unallocated initial state with initial capacity
4, requesting 9 bytes succeeds, never shrinks, reaches at least 9, and lands
on a power-of-two multiple of 4. -/
theorem claim_C6_capacity_growth_witness :
    (∀ s', EnsureReadbackHeap 4 ⟨0, false⟩ 9 = some s' →
      (⟨0, false⟩ : DmlReadbackHeapState).capacity ≤ s'.capacity ∧ 9 ≤ s'.capacity ∧
        ∃ k, s'.capacity = 4 * 2 ^ k) ∧
    (9 ≤ sizeTMax / 2 → ∃ s', EnsureReadbackHeap 4 ⟨0, false⟩ 9 = some s') ∧
    (∀ cap, sizeTMax / 2 ≤ cap → cap < 9 → ComputeNewCapacity cap 9 = none) :=
  claim_C6_capacity_growth 4 ⟨0, false⟩ 9 (by decide) (Or.inl ⟨rfl, rfl⟩)

/-- A successful name composition returns exactly the formatted name. -/
theorem ComposeKeyValueName_ok (t : NameTemplate) (i : Nat) (n : String)
    (h : ComposeKeyValueName t i = Except.ok n) : n = composedName t i := by
  rw [ComposeKeyValueName] at h
  by_cases hlen : 64 ≤ (composedName t i).length
  · rw [if_pos hlen] at h
    exact absurd h (by simp)
  · rw [if_neg hlen] at h
    exact (Except.ok.inj h).symm

/-- A successful single-template composition loop returns the formatted name
of every index, in order. -/
theorem composeNameList_ok (t : NameTemplate) :
    ∀ (is : List Nat) (ns : List String), composeNameList t is = Except.ok ns →
      ns = is.map (composedName t)
  | [], ns, h => by
    simp only [composeNameList] at h
    simp [← Except.ok.inj h]
  | i :: rest, ns, h => by
    simp only [composeNameList] at h
    cases hc : ComposeKeyValueName t i with
    | error e =>
      rw [hc] at h
      exact absurd h (by simp)
    | ok n =>
      rw [hc] at h
      cases hr : composeNameList t rest with
      | error e =>
        rw [hr] at h
        exact absurd h (by simp)
      | ok ns' =>
        rw [hr] at h
        have := Except.ok.inj h
        rw [List.map_cons, ← ComposeKeyValueName_ok t i n hc,
          ← composeNameList_ok t rest ns' hr]
        exact this.symm

/-- A successful interleaved composition loop returns, per index, the first
template's name followed by the second template's name, in order. -/
theorem composeInterleavedNameList_ok (t1 t2 : NameTemplate) :
    ∀ (is : List Nat) (ns : List String),
      composeInterleavedNameList t1 t2 is = Except.ok ns →
      ns = is.flatMap (fun i => [composedName t1 i, composedName t2 i])
  | [], ns, h => by
    simp only [composeInterleavedNameList] at h
    simp [← Except.ok.inj h]
  | i :: rest, ns, h => by
    simp only [composeInterleavedNameList] at h
    cases hc1 : ComposeKeyValueName t1 i with
    | error e =>
      rw [hc1] at h
      exact absurd h (by simp)
    | ok a =>
      rw [hc1] at h
      cases hc2 : ComposeKeyValueName t2 i with
      | error e =>
        rw [hc2] at h
        exact absurd h (by simp)
      | ok b =>
        rw [hc2] at h
        cases hr : composeInterleavedNameList t1 t2 rest with
        | error e =>
          rw [hr] at h
          exact absurd h (by simp)
        | ok ns' =>
          rw [hr] at h
          have := Except.ok.inj h
          rw [List.flatMap_cons, ← ComposeKeyValueName_ok t1 i a hc1,
            ← ComposeKeyValueName_ok t2 i b hc2,
            ← composeInterleavedNameList_ok t1 t2 rest ns' hr]
          exact this.symm

/-- Interleaving two names per index doubles the length. -/
theorem flatMap_pair_length (f g : Nat → String) :
    ∀ l : List Nat, (l.flatMap fun i => [f i, g i]).length = 2 * l.length
  | [] => rfl
  | i :: rest => by
    rw [List.flatMap_cons, List.length_append, flatMap_pair_length f g rest]
    simp only [List.length_cons, List.length_nil]
    omega

/-- Interleaving two name families over a duplicate-free index list yields a
duplicate-free list, provided each family is injective on the list and the
families never collide on it. -/
theorem flatMap_pair_nodup (f g : Nat → String) :
    ∀ l : List Nat, l.Nodup →
      (∀ i ∈ l, ∀ j ∈ l, f i = f j → i = j) →
      (∀ i ∈ l, ∀ j ∈ l, g i = g j → i = j) →
      (∀ i ∈ l, ∀ j ∈ l, f i ≠ g j) →
      (l.flatMap fun i => [f i, g i]).Nodup
  | [], _, _, _, _ => by simp
  | a :: t, hnd, hf, hg, hfg => by
    have hat : a ∈ a :: t := List.mem_cons_self a t
    have hmem : ∀ j ∈ t, j ∈ a :: t := fun j hj => List.mem_cons_of_mem a hj
    obtain ⟨hna, hndt⟩ := List.nodup_cons.1 hnd
    have ihyp := flatMap_pair_nodup f g t hndt
      (fun i hi j hj => hf i (hmem i hi) j (hmem j hj))
      (fun i hi j hj => hg i (hmem i hi) j (hmem j hj))
      (fun i hi j hj => hfg i (hmem i hi) j (hmem j hj))
    rw [List.flatMap_cons]
    show (f a :: g a :: t.flatMap fun i => [f i, g i]).Nodup
    rw [List.nodup_cons, List.nodup_cons]
    refine ⟨?_, ?_, ihyp⟩
    · intro hcontra
      rcases List.mem_cons.1 hcontra with heq | hmem2
      · exact hfg a hat a hat heq
      · obtain ⟨j, hj, hx⟩ := List.mem_flatMap.1 hmem2
        rcases List.mem_cons.1 hx with hx1 | hx2
        · exact hna ((hf a hat j (hmem j hj) hx1) ▸ hj)
        · have : f a = g j := by simpa using hx2
          exact hfg a hat j (hmem j hj) this
    · intro hcontra
      obtain ⟨j, hj, hx⟩ := List.mem_flatMap.1 hcontra
      rcases List.mem_cons.1 hx with hx1 | hx2
      · exact hfg j (hmem j hj) a hat hx1.symm
      · have hga : g a = g j := by simpa using hx2
        exact hna ((hg a hat j (hmem j hj) hga) ▸ hj)

/-- Inversion of a successful Combined-cache constructor: both name loops
succeeded with the result's name lists. -/
theorem KV_Cache_Combined_ctorNames_inv (p q : NameTemplate) (L : Nat)
    (r : CacheNamesResult) (h : KV_Cache_Combined_ctorNames p q L = Except.ok r) :
    composeNameList p (List.range L) = Except.ok r.inputNames ∧
    composeNameList q (List.range L) = Except.ok r.outputNames := by
  rw [KV_Cache_Combined_ctorNames] at h
  cases hi : composeNameList p (List.range L) with
  | error e =>
    rw [hi] at h
    exact absurd h (by simp)
  | ok ins =>
    rw [hi] at h
    cases ho : composeNameList q (List.range L) with
    | error e =>
      rw [ho] at h
      exact absurd h (by simp)
    | ok outs =>
      rw [ho] at h
      obtain rfl := Except.ok.inj h
      exact ⟨rfl, rfl⟩

/-- Inversion of a successful Cross-cache constructor. -/
theorem Cross_Cache_ctorNames_inv (p q u v : NameTemplate) (L : Nat)
    (r : CacheNamesResult) (h : Cross_Cache_ctorNames p q u v L = Except.ok r) :
    composeInterleavedNameList p q (List.range L) = Except.ok r.inputNames ∧
    composeInterleavedNameList u v (List.range L) = Except.ok r.outputNames := by
  rw [Cross_Cache_ctorNames] at h
  cases hi : composeInterleavedNameList p q (List.range L) with
  | error e =>
    rw [hi] at h
    exact absurd h (by simp)
  | ok ins =>
    rw [hi] at h
    cases ho : composeInterleavedNameList u v (List.range L) with
    | error e =>
      rw [ho] at h
      exact absurd h (by simp)
    | ok outs =>
      rw [ho] at h
      obtain rfl := Except.ok.inj h
      exact ⟨rfl, rfl⟩

/-- Inversion of a successful Sliding-Window-cache constructor: both name
loops succeeded and the declared element type was `uint8_t`. -/
theorem SlidingWindowKeyValueCache_ctorNames_inv (p q u v : NameTemplate) (L : Nat)
    (elemType : OnnxElementType) (r : CacheNamesResult)
    (h : SlidingWindowKeyValueCache_ctorNames p q u v L elemType = Except.ok r) :
    composeInterleavedNameList p q (List.range L) = Except.ok r.inputNames ∧
    composeInterleavedNameList u v (List.range L) = Except.ok r.outputNames ∧
    elemType = OnnxElementType.u8 := by
  rw [SlidingWindowKeyValueCache_ctorNames] at h
  cases hi : composeInterleavedNameList p q (List.range L) with
  | error e =>
    rw [hi] at h
    exact absurd h (by simp)
  | ok ins =>
    rw [hi] at h
    cases ho : composeInterleavedNameList u v (List.range L) with
    | error e =>
      rw [ho] at h
      exact absurd h (by simp)
    | ok outs =>
      rw [ho] at h
      have h' : (if elemType = OnnxElementType.u8
          then Except.ok (⟨ins, outs⟩ : CacheNamesResult)
          else Except.error
            "Expected input data type to be uint8_t for SlidingWindowKeyValueCache.")
          = Except.ok r := h
      by_cases ht : elemType = OnnxElementType.u8
      · rw [if_pos ht] at h'
        obtain rfl := Except.ok.inj h'
        exact ⟨rfl, rfl, ht⟩
      · rw [if_neg ht] at h'
        exact absurd h' (by simp)

/-- The split-cache constructor, when both name loops succeed, returns the
computed shared-buffer flag, the logging-gated warning bit, the composed
names and the unvalidated element type. -/
theorem KV_Cache_ctor_eq (pkT pvT prkT prvT : NameTemplate) (L : Nat)
    (requested : Bool) (numBeams : Nat) (modelType : String)
    (elemType : OnnxElementType) (logEnabled logWarning : Bool)
    (ins outs : List String)
    (hins : composeInterleavedNameList pkT pvT (List.range L) = Except.ok ins)
    (houts : composeInterleavedNameList prkT prvT (List.range L) = Except.ok outs) :
    KV_Cache_ctor pkT pvT prkT prvT L requested numBeams modelType elemType
        logEnabled logWarning
      = Except.ok ⟨requested && (numBeams == 1 || modelType == "whisper"),
          logEnabled && logWarning
            && !((requested && (numBeams == 1 || modelType == "whisper")) == requested),
          ins, outs, elemType⟩ := by
  simp only [KV_Cache_ctor]
  rw [hins, houts]

/-- C5 amended: split-cache construction computes the effective shared-buffer
flag as `requested && (num_beams == 1 || model_type == "whisper")`; when the
computed flag differs from the request, a non-fatal warning is emitted
provided warning logging is enabled (`g_log.enabled && g_log.warning`), and
construction succeeds either way. -/
theorem claim_C5_share_flag_and_warning (pkT pvT prkT prvT : NameTemplate) (L : Nat)
    (requested : Bool) (numBeams : Nat) (modelType : String)
    (elemType : OnnxElementType) (logEnabled logWarning : Bool)
    (ins outs : List String)
    (hins : composeInterleavedNameList pkT pvT (List.range L) = Except.ok ins)
    (houts : composeInterleavedNameList prkT prvT (List.range L) = Except.ok outs) :
    ∃ r, KV_Cache_ctor pkT pvT prkT prvT L requested numBeams modelType elemType
        logEnabled logWarning = Except.ok r ∧
      r.pastPresentShareBuffer = (requested && (numBeams == 1 || modelType == "whisper")) ∧
      (r.warned = true ↔
        (logEnabled = true ∧ logWarning = true ∧ r.pastPresentShareBuffer ≠ requested)) := by
  refine ⟨_, KV_Cache_ctor_eq pkT pvT prkT prvT L requested numBeams modelType elemType
    logEnabled logWarning ins outs hins houts, rfl, ?_⟩
  cases logEnabled <;> cases logWarning <;>
    cases hshare : (requested && (numBeams == 1 || modelType == "whisper")) <;>
    cases requested <;> simp_all

/-- Witness for the amended C5: with `requested = true`, two beams, a
non-whisper model and warning logging enabled, construction succeeds with the
flag downgraded to `false` and the warning emitted. -/
theorem claim_C5_share_flag_and_warning_witness :
    ∃ r, KV_Cache_ctor ⟨"past_key_", ""⟩ ⟨"past_value_", ""⟩ ⟨"present_key_", ""⟩
        ⟨"present_value_", ""⟩ 1 true 2 "llama" OnnxElementType.f32 true true
        = Except.ok r ∧
      r.pastPresentShareBuffer = (true && ((2 : Nat) == 1 || "llama" == "whisper")) ∧
      (r.warned = true ↔
        (true = true ∧ true = true ∧ r.pastPresentShareBuffer ≠ true)) :=
  claim_C5_share_flag_and_warning ⟨"past_key_", ""⟩ ⟨"past_value_", ""⟩
    ⟨"present_key_", ""⟩ ⟨"present_value_", ""⟩ 1 true 2 "llama" OnnxElementType.f32
    true true ["past_key_0", "past_value_0"] ["present_key_0", "present_value_0"]
    (by rfl) (by rfl)

/-- C5 counterexample: with logging disabled, the computed flag differs from
the requested flag (`false` vs `true`) and yet no warning is emitted
(`warned = false`), refuting the claim that a warning is emitted whenever the
flags differ. -/
theorem claim_C5_counterexample :
    KV_Cache_ctor ⟨"past_key_", ""⟩ ⟨"past_value_", ""⟩ ⟨"present_key_", ""⟩
        ⟨"present_value_", ""⟩ 1 true 2 "llama" OnnxElementType.f32 false false
      = Except.ok ⟨false, false, ["past_key_0", "past_value_0"],
          ["present_key_0", "present_value_0"], OnnxElementType.f32⟩ ∧
    (false : Bool) ≠ true := by
  exact ⟨rfl, by decide⟩

/-- C7 amended: the beam-reorder gather is type-dispatched with exactly two
paths — the 32-bit-float path for a declared float type and the
half-precision path for every other declared type — and Combined/Split
construction performs no element-type validation: it succeeds for any
declared element type. -/
theorem claim_C7_type_dispatch (t : OnnxElementType) (pkT pvT prkT prvT : NameTemplate)
    (L : Nat) (requested : Bool) (numBeams : Nat) (modelType : String)
    (logEnabled logWarning : Bool) (ins outs : List String)
    (hins : composeInterleavedNameList pkT pvT (List.range L) = Except.ok ins)
    (houts : composeInterleavedNameList prkT prvT (List.range L) = Except.ok outs) :
    (∃ r, KV_Cache_ctor pkT pvT prkT prvT L requested numBeams modelType t
        logEnabled logWarning = Except.ok r ∧ r.elemType = t) ∧
    (KV_Cache_PickPastStateDispatch t = GatherScalarType.f32 ↔ t = OnnxElementType.f32) ∧
    (KV_Cache_PickPastStateDispatch t = GatherScalarType.f16 ↔ ¬t = OnnxElementType.f32) := by
  refine ⟨⟨_, KV_Cache_ctor_eq pkT pvT prkT prvT L requested numBeams modelType t
    logEnabled logWarning ins outs hins houts, rfl⟩, ?_, ?_⟩
  · by_cases ht : t = OnnxElementType.f32 <;>
      simp [KV_Cache_PickPastStateDispatch, ht]
  · by_cases ht : t = OnnxElementType.f32 <;>
      simp [KV_Cache_PickPastStateDispatch, ht]

/-- Witness for the amended C7: an int32 declared type constructs
successfully and dispatches to the half-precision gather path. -/
theorem claim_C7_type_dispatch_witness :
    (∃ r, KV_Cache_ctor ⟨"past_key_", ""⟩ ⟨"past_value_", ""⟩ ⟨"present_key_", ""⟩
        ⟨"present_value_", ""⟩ 1 false 1 "llama" OnnxElementType.i32 false false
        = Except.ok r ∧ r.elemType = OnnxElementType.i32) ∧
    (KV_Cache_PickPastStateDispatch OnnxElementType.i32 = GatherScalarType.f32 ↔
      OnnxElementType.i32 = OnnxElementType.f32) ∧
    (KV_Cache_PickPastStateDispatch OnnxElementType.i32 = GatherScalarType.f16 ↔
      ¬OnnxElementType.i32 = OnnxElementType.f32) :=
  claim_C7_type_dispatch OnnxElementType.i32 ⟨"past_key_", ""⟩ ⟨"past_value_", ""⟩
    ⟨"present_key_", ""⟩ ⟨"present_value_", ""⟩ 1 false 1 "llama" false false
    ["past_key_0", "past_value_0"] ["present_key_0", "present_value_0"]
    (by rfl) (by rfl)

/-- C7 counterexample: constructing a split cache whose declared input
element type is int32 — neither 32-bit float nor half-precision float —
succeeds without any error, and the gather silently dispatches to the
half-precision path, refuting the claimed fail-fast construction error. -/
theorem claim_C7_counterexample :
    KV_Cache_ctor ⟨"past_key_", ""⟩ ⟨"past_value_", ""⟩ ⟨"present_key_", ""⟩
        ⟨"present_value_", ""⟩ 1 false 1 "llama" OnnxElementType.i32 false false
      = Except.ok ⟨false, false, ["past_key_0", "past_value_0"],
          ["present_key_0", "present_value_0"], OnnxElementType.i32⟩ ∧
    KV_Cache_PickPastStateDispatch OnnxElementType.i32 = GatherScalarType.f16 := by
  exact ⟨rfl, rfl⟩

/-- Inversion of a successful split-cache constructor: both interleaved name
loops succeeded with the result's name lists. -/
theorem KV_Cache_ctor_inv (pkT pvT prkT prvT : NameTemplate) (L : Nat)
    (requested : Bool) (numBeams : Nat) (modelType : String)
    (elemType : OnnxElementType) (logEnabled logWarning : Bool)
    (r : KVCacheCtorResult)
    (h : KV_Cache_ctor pkT pvT prkT prvT L requested numBeams modelType elemType
      logEnabled logWarning = Except.ok r) :
    composeInterleavedNameList pkT pvT (List.range L) = Except.ok r.inputNames ∧
    composeInterleavedNameList prkT prvT (List.range L) = Except.ok r.outputNames := by
  simp only [KV_Cache_ctor] at h
  cases hi : composeInterleavedNameList pkT pvT (List.range L) with
  | error e =>
    rw [hi] at h
    exact absurd h (by simp)
  | ok ins =>
    rw [hi] at h
    cases ho : composeInterleavedNameList prkT prvT (List.range L) with
    | error e =>
      rw [ho] at h
      exact absurd h (by simp)
    | ok outs =>
      rw [ho] at h
      obtain rfl := Except.ok.inj h
      exact ⟨rfl, rfl⟩

/-- A successful single-template composition over the layer range yields one
name per layer. -/
theorem composeNameList_range_length (t : NameTemplate) (L : Nat) (ns : List String)
    (h : composeNameList t (List.range L) = Except.ok ns) : ns.length = L := by
  rw [composeNameList_ok t (List.range L) ns h, List.length_map, List.length_range]

/-- A successful interleaved composition over the layer range yields two
names per layer. -/
theorem composeInterleavedNameList_range_length (t1 t2 : NameTemplate) (L : Nat)
    (ns : List String) (h : composeInterleavedNameList t1 t2 (List.range L) = Except.ok ns) :
    ns.length = 2 * L := by
  rw [composeInterleavedNameList_ok t1 t2 (List.range L) ns h,
    flatMap_pair_length (composedName t1) (composedName t2) (List.range L),
    List.length_range]

/-- A successful single-template composition over the layer range is
duplicate-free when the template formats distinct names per layer index. -/
theorem composeNameList_range_nodup (t : NameTemplate) (L : Nat)
    (hinj : ∀ i < L, ∀ j < L, composedName t i = composedName t j → i = j)
    (ns : List String) (h : composeNameList t (List.range L) = Except.ok ns) :
    ns.Nodup := by
  rw [composeNameList_ok t (List.range L) ns h]
  refine List.Nodup.map_on ?_ (List.nodup_range L)
  intro i hi j hj heq
  exact hinj i (List.mem_range.1 hi) j (List.mem_range.1 hj) heq

/-- A successful interleaved composition over the layer range is
duplicate-free when each template formats distinct names per layer index and
the two templates never format the same name. -/
theorem composeInterleavedNameList_range_nodup (t1 t2 : NameTemplate) (L : Nat)
    (h1 : ∀ i < L, ∀ j < L, composedName t1 i = composedName t1 j → i = j)
    (h2 : ∀ i < L, ∀ j < L, composedName t2 i = composedName t2 j → i = j)
    (h12 : ∀ i < L, ∀ j < L, composedName t1 i ≠ composedName t2 j)
    (ns : List String) (h : composeInterleavedNameList t1 t2 (List.range L) = Except.ok ns) :
    ns.Nodup := by
  rw [composeInterleavedNameList_ok t1 t2 (List.range L) ns h]
  exact flatMap_pair_nodup (composedName t1) (composedName t2) (List.range L)
    (List.nodup_range L)
    (fun i hi j hj => h1 i (List.mem_range.1 hi) j (List.mem_range.1 hj))
    (fun i hi j hj => h2 i (List.mem_range.1 hi) j (List.mem_range.1 hj))
    (fun i hi j hj => h12 i (List.mem_range.1 hi) j (List.mem_range.1 hj))

/-- C8 amended: for every layer count L ≥ 1, successful construction
produces exactly L input and L output names for the Combined cache and
exactly 2L (key and value per layer) for the Split, Cross and Sliding-Window
caches; and, provided the templates format losslessly into distinct names
(each template injective over the layer indices, key and value templates
never colliding), every produced input and output name list is
duplicate-free. -/
theorem claim_C8_slot_counts (L : Nat) (hL : 1 ≤ L)
    (tPast tPres tPK tPV tPrK tPrV tCK tCV tCrK tCrV : NameTemplate)
    (requested : Bool) (numBeams : Nat) (modelType : String)
    (elemType elemTypeSW : OnnxElementType) (logEnabled logWarning : Bool)
    (rCmb rCrs rSld : CacheNamesResult) (rSpl : KVCacheCtorResult)
    (hCmb : KV_Cache_Combined_ctorNames tPast tPres L = Except.ok rCmb)
    (hSpl : KV_Cache_ctor tPK tPV tPrK tPrV L requested numBeams modelType elemType
      logEnabled logWarning = Except.ok rSpl)
    (hCrs : Cross_Cache_ctorNames tCK tCV tCrK tCrV L = Except.ok rCrs)
    (hSld : SlidingWindowKeyValueCache_ctorNames tPK tPV tPrK tPrV L elemTypeSW
      = Except.ok rSld)
    (hPast : ∀ i < L, ∀ j < L, composedName tPast i = composedName tPast j → i = j)
    (hPres : ∀ i < L, ∀ j < L, composedName tPres i = composedName tPres j → i = j)
    (hPK : ∀ i < L, ∀ j < L, composedName tPK i = composedName tPK j → i = j)
    (hPV : ∀ i < L, ∀ j < L, composedName tPV i = composedName tPV j → i = j)
    (hPrK : ∀ i < L, ∀ j < L, composedName tPrK i = composedName tPrK j → i = j)
    (hPrV : ∀ i < L, ∀ j < L, composedName tPrV i = composedName tPrV j → i = j)
    (hCK : ∀ i < L, ∀ j < L, composedName tCK i = composedName tCK j → i = j)
    (hCV : ∀ i < L, ∀ j < L, composedName tCV i = composedName tCV j → i = j)
    (hCrK : ∀ i < L, ∀ j < L, composedName tCrK i = composedName tCrK j → i = j)
    (hCrV : ∀ i < L, ∀ j < L, composedName tCrV i = composedName tCrV j → i = j)
    (hPKV : ∀ i < L, ∀ j < L, composedName tPK i ≠ composedName tPV j)
    (hPrKV : ∀ i < L, ∀ j < L, composedName tPrK i ≠ composedName tPrV j)
    (hCKV : ∀ i < L, ∀ j < L, composedName tCK i ≠ composedName tCV j)
    (hCrKV : ∀ i < L, ∀ j < L, composedName tCrK i ≠ composedName tCrV j) :
    rCmb.inputNames.length = L ∧ rCmb.outputNames.length = L ∧
    rSpl.inputNames.length = 2 * L ∧ rSpl.outputNames.length = 2 * L ∧
    rCrs.inputNames.length = 2 * L ∧ rCrs.outputNames.length = 2 * L ∧
    rSld.inputNames.length = 2 * L ∧ rSld.outputNames.length = 2 * L ∧
    rCmb.inputNames.Nodup ∧ rCmb.outputNames.Nodup ∧
    rSpl.inputNames.Nodup ∧ rSpl.outputNames.Nodup ∧
    rCrs.inputNames.Nodup ∧ rCrs.outputNames.Nodup ∧
    rSld.inputNames.Nodup ∧ rSld.outputNames.Nodup := by
  obtain ⟨hCmbI, hCmbO⟩ := KV_Cache_Combined_ctorNames_inv tPast tPres L rCmb hCmb
  obtain ⟨hSplI, hSplO⟩ := KV_Cache_ctor_inv tPK tPV tPrK tPrV L requested numBeams
    modelType elemType logEnabled logWarning rSpl hSpl
  obtain ⟨hCrsI, hCrsO⟩ := Cross_Cache_ctorNames_inv tCK tCV tCrK tCrV L rCrs hCrs
  obtain ⟨hSldI, hSldO, _⟩ := SlidingWindowKeyValueCache_ctorNames_inv tPK tPV tPrK tPrV
    L elemTypeSW rSld hSld
  refine ⟨composeNameList_range_length tPast L _ hCmbI,
    composeNameList_range_length tPres L _ hCmbO,
    composeInterleavedNameList_range_length tPK tPV L _ hSplI,
    composeInterleavedNameList_range_length tPrK tPrV L _ hSplO,
    composeInterleavedNameList_range_length tCK tCV L _ hCrsI,
    composeInterleavedNameList_range_length tCrK tCrV L _ hCrsO,
    composeInterleavedNameList_range_length tPK tPV L _ hSldI,
    composeInterleavedNameList_range_length tPrK tPrV L _ hSldO,
    composeNameList_range_nodup tPast L hPast _ hCmbI,
    composeNameList_range_nodup tPres L hPres _ hCmbO,
    composeInterleavedNameList_range_nodup tPK tPV L hPK hPV hPKV _ hSplI,
    composeInterleavedNameList_range_nodup tPrK tPrV L hPrK hPrV hPrKV _ hSplO,
    composeInterleavedNameList_range_nodup tCK tCV L hCK hCV hCKV _ hCrsI,
    composeInterleavedNameList_range_nodup tCrK tCrV L hCrK hCrV hCrKV _ hCrsO,
    composeInterleavedNameList_range_nodup tPK tPV L hPK hPV hPKV _ hSldI,
    composeInterleavedNameList_range_nodup tPrK tPrV L hPrK hPrV hPrKV _ hSldO⟩

/-- C8 counterexample: the Cross cache at layer count 1 produces 2 input
names (a cross past key name and a cross past value name per layer), not 1
as claimed. -/
theorem claim_C8_counterexample :
    (Cross_Cache_ctorNames ⟨"cross_past_key_", ""⟩ ⟨"cross_past_value_", ""⟩
        ⟨"cross_present_key_", ""⟩ ⟨"cross_present_value_", ""⟩ 1).map
      (fun r => r.inputNames.length) = Except.ok 2 ∧ (2 : Nat) ≠ 1 :=
  ⟨rfl, by decide⟩

/-- Witness for the amended C8 at layer count 1 with the standard template
family: one input/output name for Combined, two for Split, Cross and
Sliding-Window, all duplicate-free. -/
theorem claim_C8_slot_counts_witness :
    (⟨["past_0"], ["present_0"]⟩ : CacheNamesResult).inputNames.length = 1 ∧
    (⟨["past_0"], ["present_0"]⟩ : CacheNamesResult).outputNames.length = 1 ∧
    (⟨false, false, ["past_key_0", "past_value_0"],
      ["present_key_0", "present_value_0"], OnnxElementType.u8⟩
      : KVCacheCtorResult).inputNames.length = 2 * 1 ∧
    (⟨false, false, ["past_key_0", "past_value_0"],
      ["present_key_0", "present_value_0"], OnnxElementType.u8⟩
      : KVCacheCtorResult).outputNames.length = 2 * 1 ∧
    (⟨["cross_past_key_0", "cross_past_value_0"],
      ["cross_present_key_0", "cross_present_value_0"]⟩
      : CacheNamesResult).inputNames.length = 2 * 1 ∧
    (⟨["cross_past_key_0", "cross_past_value_0"],
      ["cross_present_key_0", "cross_present_value_0"]⟩
      : CacheNamesResult).outputNames.length = 2 * 1 ∧
    (⟨["past_key_0", "past_value_0"], ["present_key_0", "present_value_0"]⟩
      : CacheNamesResult).inputNames.length = 2 * 1 ∧
    (⟨["past_key_0", "past_value_0"], ["present_key_0", "present_value_0"]⟩
      : CacheNamesResult).outputNames.length = 2 * 1 ∧
    (⟨["past_0"], ["present_0"]⟩ : CacheNamesResult).inputNames.Nodup ∧
    (⟨["past_0"], ["present_0"]⟩ : CacheNamesResult).outputNames.Nodup ∧
    (⟨false, false, ["past_key_0", "past_value_0"],
      ["present_key_0", "present_value_0"], OnnxElementType.u8⟩
      : KVCacheCtorResult).inputNames.Nodup ∧
    (⟨false, false, ["past_key_0", "past_value_0"],
      ["present_key_0", "present_value_0"], OnnxElementType.u8⟩
      : KVCacheCtorResult).outputNames.Nodup ∧
    (⟨["cross_past_key_0", "cross_past_value_0"],
      ["cross_present_key_0", "cross_present_value_0"]⟩
      : CacheNamesResult).inputNames.Nodup ∧
    (⟨["cross_past_key_0", "cross_past_value_0"],
      ["cross_present_key_0", "cross_present_value_0"]⟩
      : CacheNamesResult).outputNames.Nodup ∧
    (⟨["past_key_0", "past_value_0"], ["present_key_0", "present_value_0"]⟩
      : CacheNamesResult).inputNames.Nodup ∧
    (⟨["past_key_0", "past_value_0"], ["present_key_0", "present_value_0"]⟩
      : CacheNamesResult).outputNames.Nodup :=
  claim_C8_slot_counts 1 (by decide) ⟨"past_", ""⟩ ⟨"present_", ""⟩ ⟨"past_key_", ""⟩
    ⟨"past_value_", ""⟩ ⟨"present_key_", ""⟩ ⟨"present_value_", ""⟩
    ⟨"cross_past_key_", ""⟩ ⟨"cross_past_value_", ""⟩ ⟨"cross_present_key_", ""⟩
    ⟨"cross_present_value_", ""⟩ false 1 "llama" OnnxElementType.u8 OnnxElementType.u8
    false false ⟨["past_0"], ["present_0"]⟩
    ⟨["cross_past_key_0", "cross_past_value_0"],
      ["cross_present_key_0", "cross_present_value_0"]⟩
    ⟨["past_key_0", "past_value_0"], ["present_key_0", "present_value_0"]⟩
    ⟨false, false, ["past_key_0", "past_value_0"],
      ["present_key_0", "present_value_0"], OnnxElementType.u8⟩
    (by rfl) (by rfl) (by rfl) (by rfl)
    (by decide) (by decide) (by decide) (by decide) (by decide) (by decide)
    (by decide) (by decide) (by decide) (by decide) (by decide) (by decide)
    (by decide) (by decide)
